import Mathlib

/-! # gack: slash-command dispatch

A shallow embedding of `gack.go` (package `gack`): the `SlashCommand` record,
the `Handler` interface, `NewServer`, `Server.parseSlashCommand` and
`Server.ServeHTTP`, followed by theorems about authentication, routing and
rendering.

Modelling conventions
* A Go `error` is seen only through `Error()`, so it is an `Option String`:
  `none` is `nil`, `some msg` is a non-nil error whose text is `msg`.
* A Go `map[string]T` that is only indexed (`m[k]`, zero value when the key is
  missing) and assigned (`m[k] = v`) is a total function `String → T`.
* A `Handler` is supplied by the embedding application. `CanHandle` is a
  predicate on the command; `Handle` may read and change the outside world
  (clock, network, ...), which is passed explicitly as a value of type `W`.
* `ServeHTTP` also returns the list of interface calls it made, in order, so
  that "handler `i` was (not) called" can be stated.
-/

namespace Gack

/-- The Go struct `SlashCommand` (gack.go:43-53). -/
structure SlashCommand where
  ChannelID : String
  ChannelName : String
  Command : String
  TeamDomain : String
  TeamID : String
  Text : String
  Token : String
  UserID : String
  UserName : String
deriving DecidableEq, Repr

/-- The Go interface `Handler` (gack.go:17-37). `CanHandle` "checks the
SlashCommand that has been passed in to determine if this Handler can (or
should) actually process it": a predicate on the command. `Handle` returns the
pair `(string, error)`; it may act on the outside world (it "may want to send a
notification to the user using a different mechanism"), so it takes the state
of the world and returns the new one. -/
structure Handler (W : Type) where
  CanHandle : SlashCommand → Bool
  Handle : SlashCommand → W → (String × Option String) × W

/-- The Go struct `Server` (gack.go:58-61). -/
structure Server (W : Type) where
  tokens : String → Bool
  handlers : List (Handler W)

/-- The assignment `t[v] = true` on a `map[string]bool`. -/
def setTrue (t : String → Bool) (v : String) : String → Bool :=
  fun k => if k = v then true else t k

/-- Function `NewServer` (gack.go:73-82): start from the empty map and set `t[v] = true`
for each `v` of `tokens`, in order. -/
def NewServer {W : Type} (tokens : List String) (handlers : List (Handler W)) : Server W :=
  { tokens := tokens.foldl setTrue (fun _ => false)
    handlers := handlers }

/-- The type `url.Values` (`map[string][]string`) of the Go standard library. -/
abbrev Values := String → List String

/-- The method `url.Values.Get` of the Go standard library: the first value stored
under `key`, or the empty string when there is none. -/
def Values.Get (v : Values) (key : String) : String :=
  match v key with
  | [] => ""
  | x :: _ => x

/-- What `ServeHTTP` uses of an `*http.Request`: the error returned by
`r.ParseForm()` and the contents of `r.Form` after that call. -/
structure Request where
  parseErr : Option String
  Form : Values

/-- The zero value `&SlashCommand{}`. -/
def SlashCommand.zero : SlashCommand :=
  { ChannelID := "", ChannelName := "", Command := "", TeamDomain := "", TeamID := "",
    Text := "", Token := "", UserID := "", UserName := "" }

/-- Method `Server.parseSlashCommand` (gack.go:123-145). It reads nothing of the
server. Returns the pair `(sc, err)`. -/
def parseSlashCommand {W : Type} (_s : Server W) (r : Request) : SlashCommand × Option String :=
  match r.parseErr with
  | some err => (SlashCommand.zero, some err)
  | none =>
    ({ ChannelID := r.Form.Get "channel_id"
       ChannelName := r.Form.Get "channel_name"
       Command := r.Form.Get "command"
       TeamDomain := r.Form.Get "team_domain"
       TeamID := r.Form.Get "team_id"
       Text := r.Form.Get "text"
       Token := r.Form.Get "token"
       UserID := r.Form.Get "user_id"
       UserName := r.Form.Get "user_name" }, none)

/-- The nine form keys read by `parseSlashCommand`. -/
def formKeys : List String :=
  ["channel_id", "channel_name", "command", "team_domain", "team_id", "text", "token",
    "user_id", "user_name"]

/-- An `http.ResponseWriter`, reduced to the body written so far. -/
structure ResponseWriter where
  body : String
deriving DecidableEq, Repr

/-- The call `fmt.Fprint(w, s)` for a string `s`: append `s` to the body. -/
def Fprint (w : ResponseWriter) (s : String) : ResponseWriter :=
  { body := w.body ++ s }

/-- A call made on the handler at position `i` (0-based) of `s.handlers`. -/
inductive Call where
  | CanHandle (i : Nat)
  | Handle (i : Nat)
deriving DecidableEq, Repr

/-- The position of the handler a call was made on. -/
def Call.index : Call → Nat
  | Call.CanHandle i => i
  | Call.Handle i => i

/-- Whether a call is a `CanHandle` call. -/
def Call.isCanHandle : Call → Bool
  | Call.CanHandle _ => true
  | Call.Handle _ => false

/-- Whether a call is a `Handle` call. -/
def Call.isHandle : Call → Bool
  | Call.CanHandle _ => false
  | Call.Handle _ => true

/-- The local variables `handleOut`, `handleErr` after the loop of `ServeHTTP`,
with the outside world and the calls made. -/
structure LoopResult (W : Type) where
  handleOut : String
  handleErr : Option String
  world : W
  calls : List Call

/-- The loop `for _, h := range s.handlers` of `ServeHTTP` (gack.go:104-112),
run on the handlers from position `i` on. `handleOut` and `handleErr` start as
`""` and `nil`; a handler that cannot handle the command is skipped
(`continue`); the first one that can is run and the loop ends (`break`). -/
def rangeHandlers {W : Type} (sc : SlashCommand) :
    List (Handler W) → Nat → W → LoopResult W
  | [], _, world => { handleOut := "", handleErr := none, world := world, calls := [] }
  | h :: rest, i, world =>
    if !h.CanHandle sc then
      let res := rangeHandlers sc rest (i + 1) world
      { res with calls := Call.CanHandle i :: res.calls }
    else
      let out := h.Handle sc world
      { handleOut := out.1.1, handleErr := out.1.2, world := out.2,
        calls := [Call.CanHandle i, Call.Handle i] }

/-- The state after `ServeHTTP` returns: the server, the response writer, the
outside world and the handler calls made, in order. -/
structure Served (W : Type) where
  server : Server W
  w : ResponseWriter
  world : W
  calls : List Call

/-- Method `Server.ServeHTTP` (gack.go:84-119): parse the request, check the
token, run the handler loop and print `handleErr.Error()` when `handleErr` is
not nil, `handleOut` otherwise. -/
def ServeHTTP {W : Type} (s : Server W) (w : ResponseWriter) (r : Request) (world : W) :
    Served W :=
  let parsed := parseSlashCommand s r
  let sc := parsed.1
  match parsed.2 with
  | some err => { server := s, w := Fprint w err, world := world, calls := [] }
  | none =>
    if !s.tokens sc.Token then
      { server := s, w := Fprint w "Invalid API token. Check configuration.",
        world := world, calls := [] }
    else
      let res := rangeHandlers sc s.handlers 0 world
      match res.handleErr with
      | some e => { server := s, w := Fprint w e, world := res.world, calls := res.calls }
      | none => { server := s, w := Fprint w res.handleOut, world := res.world, calls := res.calls }

/-! ## Test fixtures (gack_test.go, examples/echo) -/

/-- The `unconditionalHandler` of gack_test.go:11-22. -/
def unconditionalHandler (canHandle : Bool) (handle : String) : Handler Unit :=
  { CanHandle := fun _ => canHandle
    Handle := fun _ u => ((handle, none), u) }

/-- The `EchoHandler` of examples/echo/main.go:14-27. -/
def EchoHandler : Handler Unit :=
  { CanHandle := fun _ => true
    Handle := fun sc u => ((sc.Command ++ " " ++ sc.Text, none), u) }

/-- A handler that accepts every command and fails with the error text `msg`,
returning `text` alongside. -/
def failingHandler (text msg : String) : Handler Unit :=
  { CanHandle := fun _ => true
    Handle := fun _ u => ((text, some msg), u) }

/-- The form built by `testBody` of gack_test.go:24-43 with the override
`token = tok`. -/
def testForm (tok : String) : Values := fun k =>
  if k = "channel_id" then ["C2147483705"]
  else if k = "channel_name" then ["test"]
  else if k = "command" then ["/weather"]
  else if k = "team_domain" then ["example"]
  else if k = "team_id" then ["T0001"]
  else if k = "text" then ["94070"]
  else if k = "token" then [tok]
  else if k = "user_id" then ["U2147483697"]
  else if k = "user_name" then ["Steve"]
  else []

/-- The request built by `testRequest` of gack_test.go:45-59. -/
def testRequest (tok : String) : Request :=
  { parseErr := none, Form := testForm tok }

/-- A request whose form data cannot be decoded. -/
def badRequest : Request :=
  { parseErr := some "invalid semicolon separator in query", Form := fun _ => [] }

/-- A handler whose `Handle` changes the outside world (here a counter of the
notifications sent) and whose reply depends on the command only. -/
def notifyingHandler : Handler Nat :=
  { CanHandle := fun sc => sc.Command = "/weather"
    Handle := fun sc n => (("forecast for " ++ sc.Text, none), n + 1) }

/-- A fresh `httptest.NewRecorder()`. -/
def NewRecorder : ResponseWriter := { body := "" }

/-! ## Auxiliary lemmas -/

theorem foldl_setTrue_iff (ts : List String) (t : String → Bool) (k : String) :
    ts.foldl setTrue t k = true ↔ t k = true ∨ k ∈ ts := by
  induction ts generalizing t with
  | nil => simp
  | cons v rest ih =>
    rw [List.foldl_cons, ih]
    by_cases hk : k = v
    · simp [setTrue, hk]
    · simp [setTrue, hk]

theorem parseSlashCommand_server {W : Type} (s s' : Server W) (r : Request) :
    parseSlashCommand s r = parseSlashCommand s' r := rfl

theorem rangeHandlers_none {W : Type} (sc : SlashCommand) (hs : List (Handler W)) (i : Nat)
    (world : W) (hrej : ∀ h ∈ hs, h.CanHandle sc = false) :
    rangeHandlers sc hs i world =
      { handleOut := "", handleErr := none, world := world,
        calls := (List.range' i hs.length).map Call.CanHandle } := by
  induction hs generalizing i with
  | nil => simp [rangeHandlers]
  | cons h rest ih =>
    have h1 : h.CanHandle sc = false := hrej h (List.mem_cons_self _ _)
    have h2 : ∀ q ∈ rest, q.CanHandle sc = false := fun q hq => hrej q (List.mem_cons_of_mem _ hq)
    simp [rangeHandlers, h1, ih (i + 1) h2, List.range'_succ]

theorem rangeHandlers_first {W : Type} (sc : SlashCommand) (pre : List (Handler W))
    (h : Handler W) (post : List (Handler W)) (i : Nat) (world : W)
    (hrej : ∀ p ∈ pre, p.CanHandle sc = false) (hacc : h.CanHandle sc = true) :
    rangeHandlers sc (pre ++ h :: post) i world =
      { handleOut := (h.Handle sc world).1.1, handleErr := (h.Handle sc world).1.2,
        world := (h.Handle sc world).2,
        calls := (List.range' i pre.length).map Call.CanHandle ++
          [Call.CanHandle (i + pre.length), Call.Handle (i + pre.length)] } := by
  induction pre generalizing i with
  | nil => simp [rangeHandlers, hacc]
  | cons p rest ih =>
    have h1 : p.CanHandle sc = false := hrej p (List.mem_cons_self _ _)
    have h2 : ∀ q ∈ rest, q.CanHandle sc = false := fun q hq => hrej q (List.mem_cons_of_mem _ hq)
    simp [rangeHandlers, h1, ih (i + 1) h2, List.range'_succ, Nat.add_assoc, Nat.add_comm 1]

theorem exists_first_accepting {W : Type} (sc : SlashCommand) (hs : List (Handler W))
    (hex : ∃ h ∈ hs, h.CanHandle sc = true) :
    ∃ pre h post, hs = pre ++ h :: post ∧ (∀ p ∈ pre, p.CanHandle sc = false) ∧
      h.CanHandle sc = true := by
  induction hs with
  | nil => simp at hex
  | cons a rest ih =>
    by_cases ha : a.CanHandle sc = true
    · exact ⟨[], a, rest, rfl, by simp, ha⟩
    · have hex' : ∃ h ∈ rest, h.CanHandle sc = true := by
        obtain ⟨h, hmem, hh⟩ := hex
        rcases List.mem_cons.mp hmem with rfl | hm
        · exact absurd hh ha
        · exact ⟨h, hm, hh⟩
      obtain ⟨pre, h, post, heq, hrej, hacc⟩ := ih hex'
      refine ⟨a :: pre, h, post, by simp [heq], ?_, hacc⟩
      intro p hp
      rcases List.mem_cons.mp hp with rfl | hm
      · simpa using ha
      · exact hrej p hm

/-- On a request that parses and whose token is accepted, `ServeHTTP` runs the
loop and renders its outcome. -/
theorem ServeHTTP_authenticated {W : Type} (s : Server W) (w : ResponseWriter) (r : Request)
    (world : W) (hparse : (parseSlashCommand s r).2 = none)
    (hauth : s.tokens (parseSlashCommand s r).1.Token = true) :
    ServeHTTP s w r world =
      { server := s
        w := Fprint w (match (rangeHandlers (parseSlashCommand s r).1 s.handlers 0 world).handleErr with
          | some e => e
          | none => (rangeHandlers (parseSlashCommand s r).1 s.handlers 0 world).handleOut)
        world := (rangeHandlers (parseSlashCommand s r).1 s.handlers 0 world).world
        calls := (rangeHandlers (parseSlashCommand s r).1 s.handlers 0 world).calls } := by
  unfold ServeHTTP
  simp only [hparse, hauth]
  cases hE : (rangeHandlers (parseSlashCommand s r).1 s.handlers 0 world).handleErr <;> simp

theorem filter_isHandle_map_CanHandle (l : List Nat) :
    (l.map Call.CanHandle).filter Call.isHandle = [] := by
  induction l with
  | nil => rfl
  | cons a rest ih => simp [List.filter_cons, Call.isHandle, ih]

/-! ## Authentication -/

/-- C1: for every token list `ts` given to `NewServer` and every command `c`,
the check `s.tokens[c.Token]` of `ServeHTTP` passes exactly when `c.Token` is
an element of `ts` (equality of strings); in particular the empty token passes
exactly when `""` is an element of `ts`. -/
theorem token_check_iff_mem {W : Type} (ts : List String) (hs : List (Handler W))
    (c : SlashCommand) :
    ((NewServer ts hs).tokens c.Token = true ↔ c.Token ∈ ts) ∧
    ((NewServer ts hs).tokens "" = true ↔ "" ∈ ts) := by
  constructor
  · simp [NewServer, foldl_setTrue_iff]
  · simp [NewServer, foldl_setTrue_iff]

/-- C2: when the request parses and its token is not in the credential set,
`ServeHTTP` writes exactly `"Invalid API token. Check configuration."`, makes no
`CanHandle` or `Handle` call and leaves the outside world as it was, whatever
the handler list is. -/
theorem invalid_token_rejected {W : Type} (s : Server W) (w : ResponseWriter) (r : Request)
    (world : W) (hparse : (parseSlashCommand s r).2 = none)
    (htok : s.tokens (parseSlashCommand s r).1.Token = false) :
    (ServeHTTP s w r world).w.body = w.body ++ "Invalid API token. Check configuration." ∧
    (ServeHTTP s w r world).calls = [] ∧
    (ServeHTTP s w r world).world = world := by
  unfold ServeHTTP
  simp [hparse, htok, Fprint]

theorem invalid_token_rejected_witness :
    (parseSlashCommand (NewServer ["aaa"] [EchoHandler]) (testRequest "bad")).2 = none ∧
    (NewServer ["aaa"] [EchoHandler]).tokens
      (parseSlashCommand (NewServer ["aaa"] [EchoHandler]) (testRequest "bad")).1.Token = false ∧
    ((ServeHTTP (NewServer ["aaa"] [EchoHandler]) NewRecorder (testRequest "bad") ()).w.body
        = NewRecorder.body ++ "Invalid API token. Check configuration." ∧
      (ServeHTTP (NewServer ["aaa"] [EchoHandler]) NewRecorder (testRequest "bad") ()).calls = [] ∧
      (ServeHTTP (NewServer ["aaa"] [EchoHandler]) NewRecorder (testRequest "bad") ()).world = ()) :=
  ⟨by decide, by decide,
    invalid_token_rejected (NewServer ["aaa"] [EchoHandler]) NewRecorder (testRequest "bad") ()
      (by decide) (by decide)⟩

/-- C8: a server built by `NewServer` from the empty token list rejects every
request that parses, whatever its token and whatever the handlers: the body is
`"Invalid API token. Check configuration."` and no handler is called. -/
theorem no_tokens_rejects_all {W : Type} (hs : List (Handler W)) (w : ResponseWriter)
    (r : Request) (world : W) (hparse : (parseSlashCommand (NewServer [] hs) r).2 = none) :
    (ServeHTTP (NewServer [] hs) w r world).w.body
      = w.body ++ "Invalid API token. Check configuration." ∧
    (ServeHTTP (NewServer [] hs) w r world).calls = [] := by
  have htok : (NewServer [] hs).tokens (parseSlashCommand (NewServer [] hs) r).1.Token = false := rfl
  unfold ServeHTTP
  simp [hparse, htok, Fprint]

theorem no_tokens_rejects_all_witness :
    (parseSlashCommand (NewServer [] [EchoHandler]) (testRequest "")).2 = none ∧
    ((ServeHTTP (NewServer [] [EchoHandler]) NewRecorder (testRequest "") ()).w.body
        = NewRecorder.body ++ "Invalid API token. Check configuration." ∧
      (ServeHTTP (NewServer [] [EchoHandler]) NewRecorder (testRequest "") ()).calls = []) :=
  ⟨by decide, no_tokens_rejects_all [EchoHandler] NewRecorder (testRequest "") () (by decide)⟩

/-! ## Parsing -/

/-- C6: when `parseSlashCommand` returns an error `e`, `ServeHTTP` writes exactly
`e`, calls no handler and leaves the outside world as it was; the outcome is the
same for every other choice of tokens and handlers. -/
theorem decode_error_rendered {W : Type} (s : Server W) (w : ResponseWriter) (r : Request)
    (world : W) (e : String) (herr : (parseSlashCommand s r).2 = some e) :
    (ServeHTTP s w r world).w.body = w.body ++ e ∧
    (ServeHTTP s w r world).calls = [] ∧
    (ServeHTTP s w r world).world = world ∧
    ∀ s' : Server W, (ServeHTTP s' w r world).w = (ServeHTTP s w r world).w ∧
      (ServeHTTP s' w r world).calls = [] ∧ (ServeHTTP s' w r world).world = world := by
  have herr' : ∀ s' : Server W, (parseSlashCommand s' r).2 = some e := fun s' => by
    rw [parseSlashCommand_server s' s]; exact herr
  refine ⟨?_, ?_, ?_, ?_⟩
  · unfold ServeHTTP; simp [herr, Fprint]
  · unfold ServeHTTP; simp [herr]
  · unfold ServeHTTP; simp [herr]
  · intro s'
    unfold ServeHTTP
    simp [herr, herr' s']

theorem decode_error_rendered_witness :
    (parseSlashCommand (NewServer ["aaa", ""] [EchoHandler]) badRequest).2
      = some "invalid semicolon separator in query" ∧
    ((ServeHTTP (NewServer ["aaa", ""] [EchoHandler]) NewRecorder badRequest ()).w.body
        = NewRecorder.body ++ "invalid semicolon separator in query" ∧
      (ServeHTTP (NewServer ["aaa", ""] [EchoHandler]) NewRecorder badRequest ()).calls = [] ∧
      (ServeHTTP (NewServer ["aaa", ""] [EchoHandler]) NewRecorder badRequest ()).world = () ∧
      ∀ s' : Server Unit,
        (ServeHTTP s' NewRecorder badRequest ()).w
          = (ServeHTTP (NewServer ["aaa", ""] [EchoHandler]) NewRecorder badRequest ()).w ∧
        (ServeHTTP s' NewRecorder badRequest ()).calls = [] ∧
        (ServeHTTP s' NewRecorder badRequest ()).world = ()) :=
  ⟨by decide,
    decode_error_rendered (NewServer ["aaa", ""] [EchoHandler]) NewRecorder badRequest ()
      "invalid semicolon separator in query" (by decide)⟩

/-- C7: when the form decodes, `parseSlashCommand` returns no error and a
command whose nine fields are the values the form holds under `channel_id`,
`channel_name`, `command`, `team_domain`, `team_id`, `text`, `token`, `user_id`
and `user_name`; a key that is present yields its value unchanged, an absent key
yields the empty string, and two forms that agree on the nine keys parse to the
same command. -/
theorem parse_fields {W : Type} (s : Server W) (r : Request) (hok : r.parseErr = none) :
    (parseSlashCommand s r).2 = none ∧
    (parseSlashCommand s r).1 =
      { ChannelID := r.Form.Get "channel_id", ChannelName := r.Form.Get "channel_name",
        Command := r.Form.Get "command", TeamDomain := r.Form.Get "team_domain",
        TeamID := r.Form.Get "team_id", Text := r.Form.Get "text", Token := r.Form.Get "token",
        UserID := r.Form.Get "user_id", UserName := r.Form.Get "user_name" } ∧
    (∀ key v rest, r.Form key = v :: rest → r.Form.Get key = v) ∧
    (∀ key, r.Form key = [] → r.Form.Get key = "") ∧
    (∀ r' : Request, r'.parseErr = none → (∀ key ∈ formKeys, r'.Form key = r.Form key) →
      parseSlashCommand s r' = parseSlashCommand s r) := by
  refine ⟨?_, ?_, ?_, ?_, ?_⟩
  · simp [parseSlashCommand, hok]
  · simp [parseSlashCommand, hok]
  · intro key v rest h
    simp [Values.Get, h]
  · intro key h
    simp [Values.Get, h]
  · intro r' hok' hagree
    have hget : ∀ key ∈ formKeys, r'.Form.Get key = r.Form.Get key := fun key hk => by
      simp [Values.Get, hagree key hk]
    simp only [formKeys, List.mem_cons, List.mem_singleton, forall_eq_or_imp, forall_eq] at hget
    simp [parseSlashCommand, hok, hok', hget]

theorem parse_fields_witness :
    (testRequest "gIkuvaNzQIHg97ATvDxqgjtO").parseErr = none ∧
    ((parseSlashCommand (NewServer [] ([] : List (Handler Unit)))
        (testRequest "gIkuvaNzQIHg97ATvDxqgjtO")).2 = none ∧
    (parseSlashCommand (NewServer [] ([] : List (Handler Unit)))
        (testRequest "gIkuvaNzQIHg97ATvDxqgjtO")).1 =
      { ChannelID := (testRequest "gIkuvaNzQIHg97ATvDxqgjtO").Form.Get "channel_id",
        ChannelName := (testRequest "gIkuvaNzQIHg97ATvDxqgjtO").Form.Get "channel_name",
        Command := (testRequest "gIkuvaNzQIHg97ATvDxqgjtO").Form.Get "command",
        TeamDomain := (testRequest "gIkuvaNzQIHg97ATvDxqgjtO").Form.Get "team_domain",
        TeamID := (testRequest "gIkuvaNzQIHg97ATvDxqgjtO").Form.Get "team_id",
        Text := (testRequest "gIkuvaNzQIHg97ATvDxqgjtO").Form.Get "text",
        Token := (testRequest "gIkuvaNzQIHg97ATvDxqgjtO").Form.Get "token",
        UserID := (testRequest "gIkuvaNzQIHg97ATvDxqgjtO").Form.Get "user_id",
        UserName := (testRequest "gIkuvaNzQIHg97ATvDxqgjtO").Form.Get "user_name" } ∧
    (∀ key v rest, (testRequest "gIkuvaNzQIHg97ATvDxqgjtO").Form key = v :: rest →
      (testRequest "gIkuvaNzQIHg97ATvDxqgjtO").Form.Get key = v) ∧
    (∀ key, (testRequest "gIkuvaNzQIHg97ATvDxqgjtO").Form key = [] →
      (testRequest "gIkuvaNzQIHg97ATvDxqgjtO").Form.Get key = "") ∧
    (∀ r' : Request, r'.parseErr = none →
      (∀ key ∈ formKeys, r'.Form key = (testRequest "gIkuvaNzQIHg97ATvDxqgjtO").Form key) →
      parseSlashCommand (NewServer [] ([] : List (Handler Unit))) r'
        = parseSlashCommand (NewServer [] ([] : List (Handler Unit)))
            (testRequest "gIkuvaNzQIHg97ATvDxqgjtO"))) :=
  ⟨rfl, parse_fields (NewServer [] ([] : List (Handler Unit)))
    (testRequest "gIkuvaNzQIHg97ATvDxqgjtO") rfl⟩

/-! ## Routing and rendering -/

/-- C4: when the request parses, its token is accepted and no handler's
`CanHandle` accepts the command (in particular when there is no handler at
all), no `Handle` call is made, the outside world is left as it was and nothing
is added to the response body. -/
theorem no_match_empty_body {W : Type} (s : Server W) (w : ResponseWriter) (r : Request)
    (world : W) (hparse : (parseSlashCommand s r).2 = none)
    (hauth : s.tokens (parseSlashCommand s r).1.Token = true)
    (hrej : ∀ h ∈ s.handlers, h.CanHandle (parseSlashCommand s r).1 = false) :
    (ServeHTTP s w r world).calls.filter Call.isHandle = [] ∧
    (ServeHTTP s w r world).w.body = w.body ∧
    (ServeHTTP s w r world).world = world := by
  rw [ServeHTTP_authenticated s w r world hparse hauth,
    rangeHandlers_none _ _ 0 world hrej]
  simp [Fprint, filter_isHandle_map_CanHandle]

theorem no_match_empty_body_witness :
    (parseSlashCommand (NewServer ["aaa", "dasdsdc", ""] ([] : List (Handler Unit)))
      (testRequest "aaa")).2 = none ∧
    (NewServer ["aaa", "dasdsdc", ""] ([] : List (Handler Unit))).tokens
      (parseSlashCommand (NewServer ["aaa", "dasdsdc", ""] ([] : List (Handler Unit)))
        (testRequest "aaa")).1.Token = true ∧
    ((ServeHTTP (NewServer ["aaa", "dasdsdc", ""] ([] : List (Handler Unit))) NewRecorder
        (testRequest "aaa") ()).calls.filter Call.isHandle = [] ∧
      (ServeHTTP (NewServer ["aaa", "dasdsdc", ""] ([] : List (Handler Unit))) NewRecorder
        (testRequest "aaa") ()).w.body = NewRecorder.body ∧
      (ServeHTTP (NewServer ["aaa", "dasdsdc", ""] ([] : List (Handler Unit))) NewRecorder
        (testRequest "aaa") ()).world = ()) :=
  ⟨by decide, by decide,
    no_match_empty_body (NewServer ["aaa", "dasdsdc", ""] ([] : List (Handler Unit))) NewRecorder
      (testRequest "aaa") () (by decide) (by decide) (by simp [NewServer])⟩

/-- C3: when the request parses, its token is accepted and some handler accepts
the command, the handler list splits as `pre ++ h :: post` where every handler
of `pre` rejects the command and `h` accepts it; the only `Handle` call made is
the one on `h` (position `pre.length`); when that call returns `(text, nil)` the
response body is `text`; and replacing the handlers after `h` by any others
changes neither the response, nor the calls, nor the outside world. -/
theorem first_accepting_handler_runs {W : Type} (s : Server W) (w : ResponseWriter)
    (r : Request) (world : W) (hparse : (parseSlashCommand s r).2 = none)
    (hauth : s.tokens (parseSlashCommand s r).1.Token = true)
    (hex : ∃ h ∈ s.handlers, h.CanHandle (parseSlashCommand s r).1 = true) :
    ∃ pre h post, s.handlers = pre ++ h :: post ∧
      (∀ p ∈ pre, p.CanHandle (parseSlashCommand s r).1 = false) ∧
      h.CanHandle (parseSlashCommand s r).1 = true ∧
      (ServeHTTP s w r world).calls.filter Call.isHandle = [Call.Handle pre.length] ∧
      (∀ text, (h.Handle (parseSlashCommand s r).1 world).1 = (text, none) →
        (ServeHTTP s w r world).w.body = w.body ++ text) ∧
      (∀ post',
        (ServeHTTP { tokens := s.tokens, handlers := pre ++ h :: post' } w r world).w
          = (ServeHTTP s w r world).w ∧
        (ServeHTTP { tokens := s.tokens, handlers := pre ++ h :: post' } w r world).calls
          = (ServeHTTP s w r world).calls ∧
        (ServeHTTP { tokens := s.tokens, handlers := pre ++ h :: post' } w r world).world
          = (ServeHTTP s w r world).world) := by
  obtain ⟨pre, h, post, hsplit, hrej, hacc⟩ := exists_first_accepting _ _ hex
  refine ⟨pre, h, post, hsplit, hrej, hacc, ?_, ?_, ?_⟩
  · rw [ServeHTTP_authenticated s w r world hparse hauth, hsplit,
      rangeHandlers_first _ pre h post 0 world hrej hacc]
    simp [List.filter_append, filter_isHandle_map_CanHandle, List.filter_cons, Call.isHandle]
  · intro text htext
    rw [ServeHTTP_authenticated s w r world hparse hauth, hsplit,
      rangeHandlers_first _ pre h post 0 world hrej hacc]
    simp [Fprint, htext]
  · intro post'
    have hparse' : (parseSlashCommand
        ({ tokens := s.tokens, handlers := pre ++ h :: post' } : Server W) r).2 = none := hparse
    have hauth' : ({ tokens := s.tokens, handlers := pre ++ h :: post' } : Server W).tokens
        (parseSlashCommand
          ({ tokens := s.tokens, handlers := pre ++ h :: post' } : Server W) r).1.Token
          = true := hauth
    rw [ServeHTTP_authenticated s w r world hparse hauth,
      ServeHTTP_authenticated _ w r world hparse' hauth', hsplit,
      rangeHandlers_first _ pre h post 0 world hrej hacc]
    have hp : parseSlashCommand
        ({ tokens := s.tokens, handlers := pre ++ h :: post' } : Server W) r
          = parseSlashCommand s r := rfl
    simp only [hp]
    rw [rangeHandlers_first _ pre h post' 0 world hrej hacc]
    simp

theorem first_accepting_handler_runs_witness :
    (parseSlashCommand
      (NewServer ["aaa"] [unconditionalHandler false "first", unconditionalHandler true "second",
        unconditionalHandler true "third"]) (testRequest "aaa")).2 = none ∧
    (NewServer ["aaa"] [unconditionalHandler false "first", unconditionalHandler true "second",
        unconditionalHandler true "third"]).tokens
      (parseSlashCommand
        (NewServer ["aaa"] [unconditionalHandler false "first", unconditionalHandler true "second",
          unconditionalHandler true "third"]) (testRequest "aaa")).1.Token = true ∧
    (ServeHTTP
      (NewServer ["aaa"] [unconditionalHandler false "first", unconditionalHandler true "second",
        unconditionalHandler true "third"]) NewRecorder (testRequest "aaa") ()).w.body = "second" ∧
    (ServeHTTP
      (NewServer ["aaa"] [unconditionalHandler false "first", unconditionalHandler true "second",
        unconditionalHandler true "third"]) NewRecorder (testRequest "aaa") ()).calls
      = [Call.CanHandle 0, Call.CanHandle 1, Call.Handle 1] ∧
    ∃ pre h post,
      (NewServer ["aaa"] [unconditionalHandler false "first", unconditionalHandler true "second",
        unconditionalHandler true "third"]).handlers = pre ++ h :: post ∧
      (ServeHTTP
        (NewServer ["aaa"] [unconditionalHandler false "first", unconditionalHandler true "second",
          unconditionalHandler true "third"]) NewRecorder (testRequest "aaa") ()).calls.filter
          Call.isHandle = [Call.Handle pre.length] :=
  ⟨by decide, by decide, by decide, by decide,
    (first_accepting_handler_runs
      (NewServer ["aaa"] [unconditionalHandler false "first", unconditionalHandler true "second",
        unconditionalHandler true "third"]) NewRecorder (testRequest "aaa") ()
      (by decide) (by decide)
      ⟨unconditionalHandler true "second", by simp [NewServer], rfl⟩).elim
      fun pre hp => hp.elim fun h hh => hh.elim fun post hpost =>
        ⟨pre, h, post, hpost.1, hpost.2.2.2.1⟩⟩

/-- C5: when the request parses, its token is accepted, and the first handler
accepting the command (`h`, after the rejecting handlers `pre`) returns a
non-nil error `e` from `Handle` together with any `text`, the response body is
exactly `e`; the calls made are `CanHandle` on positions `0..pre.length` and
`Handle` on position `pre.length`, so none is made on a later handler; and the
handlers after `h` can be replaced by any others without changing the
response or the calls. -/
theorem handler_error_rendered {W : Type} (s : Server W) (w : ResponseWriter) (r : Request)
    (world : W) (pre : List (Handler W)) (h : Handler W) (post : List (Handler W))
    (text e : String) (hparse : (parseSlashCommand s r).2 = none)
    (hauth : s.tokens (parseSlashCommand s r).1.Token = true)
    (hsplit : s.handlers = pre ++ h :: post)
    (hrej : ∀ p ∈ pre, p.CanHandle (parseSlashCommand s r).1 = false)
    (hacc : h.CanHandle (parseSlashCommand s r).1 = true)
    (hfail : (h.Handle (parseSlashCommand s r).1 world).1 = (text, some e)) :
    (ServeHTTP s w r world).w.body = w.body ++ e ∧
    (ServeHTTP s w r world).calls =
      (List.range pre.length).map Call.CanHandle ++
        [Call.CanHandle pre.length, Call.Handle pre.length] ∧
    (∀ c ∈ (ServeHTTP s w r world).calls, c.index ≤ pre.length) ∧
    (∀ post',
      (ServeHTTP { tokens := s.tokens, handlers := pre ++ h :: post' } w r world).w.body
        = w.body ++ e ∧
      (ServeHTTP { tokens := s.tokens, handlers := pre ++ h :: post' } w r world).calls
        = (ServeHTTP s w r world).calls) := by
  have hserve : ∀ post', ServeHTTP { tokens := s.tokens, handlers := pre ++ h :: post' } w r world
      = { server := { tokens := s.tokens, handlers := pre ++ h :: post' }
          w := Fprint w e
          world := (h.Handle (parseSlashCommand s r).1 world).2
          calls := (List.range pre.length).map Call.CanHandle ++
            [Call.CanHandle pre.length, Call.Handle pre.length] } := by
    intro post'
    have hparse' : (parseSlashCommand
        ({ tokens := s.tokens, handlers := pre ++ h :: post' } : Server W) r).2 = none := hparse
    have hauth' : ({ tokens := s.tokens, handlers := pre ++ h :: post' } : Server W).tokens
        (parseSlashCommand
          ({ tokens := s.tokens, handlers := pre ++ h :: post' } : Server W) r).1.Token
          = true := hauth
    have hp : parseSlashCommand
        ({ tokens := s.tokens, handlers := pre ++ h :: post' } : Server W) r
          = parseSlashCommand s r := rfl
    rw [ServeHTTP_authenticated _ w r world hparse' hauth']
    simp only [hp]
    rw [rangeHandlers_first _ pre h post' 0 world hrej hacc]
    simp [hfail, List.range_eq_range']
  have hs : s = { tokens := s.tokens, handlers := pre ++ h :: post } := by
    cases s; simp at hsplit; simp [hsplit]
  have hmain := hserve post
  rw [← hs] at hmain
  refine ⟨?_, ?_, ?_, ?_⟩
  · rw [hmain]; rfl
  · rw [hmain]
  · rw [hmain]
    intro c hc
    simp only [List.mem_append, List.mem_map, List.mem_range, List.mem_cons,
      List.mem_singleton, List.not_mem_nil, or_false] at hc
    rcases hc with ⟨i, hi, rfl⟩ | rfl | rfl
    · exact Nat.le_of_lt hi
    · exact Nat.le_refl _
    · exact Nat.le_refl _
  · intro post'
    rw [hserve post', hmain]
    exact ⟨rfl, rfl⟩

theorem handler_error_rendered_witness :
    (ServeHTTP
      (NewServer ["aaa"] [unconditionalHandler false "first", failingHandler "ignored" "boom",
        EchoHandler]) NewRecorder (testRequest "aaa") ()).w.body = NewRecorder.body ++ "boom" ∧
    (ServeHTTP
      (NewServer ["aaa"] [unconditionalHandler false "first", failingHandler "ignored" "boom",
        EchoHandler]) NewRecorder (testRequest "aaa") ()).calls
      = (List.range [unconditionalHandler false "first"].length).map Call.CanHandle ++
        [Call.CanHandle [unconditionalHandler false "first"].length,
          Call.Handle [unconditionalHandler false "first"].length] ∧
    (∀ c ∈ (ServeHTTP
      (NewServer ["aaa"] [unconditionalHandler false "first", failingHandler "ignored" "boom",
        EchoHandler]) NewRecorder (testRequest "aaa") ()).calls,
      c.index ≤ [unconditionalHandler false "first"].length) ∧
    (∀ post',
      (ServeHTTP { tokens := (NewServer ["aaa"] ([] : List (Handler Unit))).tokens,
                   handlers := [unconditionalHandler false "first"]
                     ++ failingHandler "ignored" "boom" :: post' }
        NewRecorder (testRequest "aaa") ()).w.body = NewRecorder.body ++ "boom" ∧
      (ServeHTTP { tokens := (NewServer ["aaa"] ([] : List (Handler Unit))).tokens,
                   handlers := [unconditionalHandler false "first"]
                     ++ failingHandler "ignored" "boom" :: post' }
        NewRecorder (testRequest "aaa") ()).calls
        = (ServeHTTP
            (NewServer ["aaa"] [unconditionalHandler false "first",
              failingHandler "ignored" "boom", EchoHandler])
            NewRecorder (testRequest "aaa") ()).calls) :=
  handler_error_rendered
    (NewServer ["aaa"] [unconditionalHandler false "first", failingHandler "ignored" "boom",
      EchoHandler]) NewRecorder (testRequest "aaa") ()
    [unconditionalHandler false "first"] (failingHandler "ignored" "boom") [EchoHandler]
    "ignored" "boom" (by decide) (by decide) rfl (by simp [unconditionalHandler]) rfl rfl

/-- C10: when the request parses and its token is accepted, the `CanHandle` calls
made by `ServeHTTP` are those on positions `0, 1, ..., k - 1` of the handler
list, in this order and once each, where `k` is the 1-based position of the
first handler accepting the command, or the number of handlers if none accepts
it. -/
theorem canHandle_calls_in_order {W : Type} (s : Server W) (w : ResponseWriter) (r : Request)
    (world : W) (hparse : (parseSlashCommand s r).2 = none)
    (hauth : s.tokens (parseSlashCommand s r).1.Token = true) :
    (ServeHTTP s w r world).calls.filter Call.isCanHandle =
      (List.range (min (s.handlers.findIdx (fun h => h.CanHandle (parseSlashCommand s r).1) + 1)
        s.handlers.length)).map Call.CanHandle := by
  have hloop : ∀ (hs : List (Handler W)) (i : Nat),
      (rangeHandlers (parseSlashCommand s r).1 hs i world).calls.filter Call.isCanHandle =
        (List.range' i (min (hs.findIdx (fun h => h.CanHandle (parseSlashCommand s r).1) + 1)
          hs.length)).map Call.CanHandle := by
    intro hs
    induction hs with
    | nil => intro i; simp [rangeHandlers]
    | cons h rest ih =>
      intro i
      by_cases hc : h.CanHandle (parseSlashCommand s r).1 = true
      · simp [rangeHandlers, hc, List.findIdx_cons, List.filter_cons, Call.isCanHandle]
      · have hc' : h.CanHandle (parseSlashCommand s r).1 = false := by simpa using hc
        simp [rangeHandlers, hc', List.findIdx_cons, List.filter_cons, Call.isCanHandle, ih (i + 1),
          Nat.add_min_add_right, List.range'_succ]
  rw [ServeHTTP_authenticated s w r world hparse hauth, List.range_eq_range']
  exact hloop s.handlers 0

theorem canHandle_calls_in_order_witness :
    (parseSlashCommand
      (NewServer ["aaa"] [unconditionalHandler false "first", unconditionalHandler true "second",
        unconditionalHandler true "third"]) (testRequest "aaa")).2 = none ∧
    (ServeHTTP
      (NewServer ["aaa"] [unconditionalHandler false "first", unconditionalHandler true "second",
        unconditionalHandler true "third"]) NewRecorder (testRequest "aaa") ()).calls.filter
        Call.isCanHandle =
      (List.range (min
        ((NewServer ["aaa"] [unconditionalHandler false "first",
            unconditionalHandler true "second", unconditionalHandler true "third"]).handlers.findIdx
          (fun h => h.CanHandle (parseSlashCommand
            (NewServer ["aaa"] [unconditionalHandler false "first",
              unconditionalHandler true "second", unconditionalHandler true "third"])
            (testRequest "aaa")).1) + 1)
        (NewServer ["aaa"] [unconditionalHandler false "first",
            unconditionalHandler true "second",
            unconditionalHandler true "third"]).handlers.length)).map Call.CanHandle :=
  ⟨by decide,
    canHandle_calls_in_order
      (NewServer ["aaa"] [unconditionalHandler false "first", unconditionalHandler true "second",
        unconditionalHandler true "third"]) NewRecorder (testRequest "aaa") ()
      (by decide) (by decide)⟩

/-! ## Frame and repeatability -/

theorem ServeHTTP_server {W : Type} (s : Server W) (w : ResponseWriter) (r : Request)
    (world : W) : (ServeHTTP s w r world).server = s := by
  cases hp : (parseSlashCommand s r).2 with
  | some e => unfold ServeHTTP; simp [hp]
  | none =>
    cases ht : s.tokens (parseSlashCommand s r).1.Token with
    | false => unfold ServeHTTP; simp [hp, ht]
    | true => rw [ServeHTTP_authenticated s w r world hp ht]

theorem rangeHandlers_world_irrelevant {W : Type} (sc : SlashCommand) (hs : List (Handler W))
    (i : Nat) (w1 w2 : W)
    (hdet : ∀ h ∈ hs, ∀ c v1 v2, (h.Handle c v1).1 = (h.Handle c v2).1) :
    (rangeHandlers sc hs i w1).handleOut = (rangeHandlers sc hs i w2).handleOut ∧
    (rangeHandlers sc hs i w1).handleErr = (rangeHandlers sc hs i w2).handleErr ∧
    (rangeHandlers sc hs i w1).calls = (rangeHandlers sc hs i w2).calls := by
  induction hs generalizing i with
  | nil => simp [rangeHandlers]
  | cons h rest ih =>
    have hrest : ∀ q ∈ rest, ∀ c v1 v2, (q.Handle c v1).1 = (q.Handle c v2).1 :=
      fun q hq => hdet q (List.mem_cons_of_mem _ hq)
    have hh := hdet h (List.mem_cons_self _ _) sc w1 w2
    by_cases hc : h.CanHandle sc = true
    · simp [rangeHandlers, hc, hh]
    · have hc' : h.CanHandle sc = false := by simpa using hc
      have := ih (i + 1) hrest
      simp [rangeHandlers, hc', this]

/-- C9: `ServeHTTP` returns the server with the same credential set and handler
list it was given; hence, when the text and error returned by every handler's
`Handle` depend on the command only (`CanHandle` is a function of the command by
its type), serving the same request a second time on the server left by the
first call, in the outside world left by the first call and with a recorder in
the same initial state, makes the same calls and produces the same response
body. -/
theorem serve_twice_same_response {W : Type} (s : Server W) (w : ResponseWriter) (r : Request)
    (world : W)
    (hdet : ∀ h ∈ s.handlers, ∀ c v1 v2, (h.Handle c v1).1 = (h.Handle c v2).1) :
    (ServeHTTP s w r world).server = s ∧
    (ServeHTTP (ServeHTTP s w r world).server w r (ServeHTTP s w r world).world).server = s ∧
    (ServeHTTP (ServeHTTP s w r world).server w r (ServeHTTP s w r world).world).w.body
      = (ServeHTTP s w r world).w.body ∧
    (ServeHTTP (ServeHTTP s w r world).server w r (ServeHTTP s w r world).world).calls
      = (ServeHTTP s w r world).calls := by
  have hany : ∀ w1 w2 : W, (ServeHTTP s w r w1).w = (ServeHTTP s w r w2).w ∧
      (ServeHTTP s w r w1).calls = (ServeHTTP s w r w2).calls := by
    intro w1 w2
    cases hp : (parseSlashCommand s r).2 with
    | some e => unfold ServeHTTP; simp [hp]
    | none =>
      cases ht : s.tokens (parseSlashCommand s r).1.Token with
      | false => unfold ServeHTTP; simp [hp, ht]
      | true =>
        obtain ⟨h1, h2, h3⟩ :=
          rangeHandlers_world_irrelevant (parseSlashCommand s r).1 s.handlers 0 w1 w2 hdet
        rw [ServeHTTP_authenticated s w r w1 hp ht, ServeHTTP_authenticated s w r w2 hp ht]
        simp [h1, h2, h3]
  rw [ServeHTTP_server s w r world]
  refine ⟨rfl, ServeHTTP_server _ _ _ _, ?_, ?_⟩
  · rw [(hany (ServeHTTP s w r world).world world).1]
  · rw [(hany (ServeHTTP s w r world).world world).2]

theorem serve_twice_same_response_witness :
    (ServeHTTP (NewServer ["aaa"] [notifyingHandler]) NewRecorder (testRequest "aaa") 0).w.body
      = "forecast for 94070" ∧
    (ServeHTTP (NewServer ["aaa"] [notifyingHandler]) NewRecorder (testRequest "aaa") 0).world = 1 ∧
    ((ServeHTTP (NewServer ["aaa"] [notifyingHandler]) NewRecorder (testRequest "aaa") 0).server
        = NewServer ["aaa"] [notifyingHandler] ∧
      (ServeHTTP
        (ServeHTTP (NewServer ["aaa"] [notifyingHandler]) NewRecorder (testRequest "aaa") 0).server
        NewRecorder (testRequest "aaa")
        (ServeHTTP (NewServer ["aaa"] [notifyingHandler]) NewRecorder
          (testRequest "aaa") 0).world).server
        = NewServer ["aaa"] [notifyingHandler] ∧
      (ServeHTTP
        (ServeHTTP (NewServer ["aaa"] [notifyingHandler]) NewRecorder (testRequest "aaa") 0).server
        NewRecorder (testRequest "aaa")
        (ServeHTTP (NewServer ["aaa"] [notifyingHandler]) NewRecorder
          (testRequest "aaa") 0).world).w.body
        = (ServeHTTP (NewServer ["aaa"] [notifyingHandler]) NewRecorder
            (testRequest "aaa") 0).w.body ∧
      (ServeHTTP
        (ServeHTTP (NewServer ["aaa"] [notifyingHandler]) NewRecorder (testRequest "aaa") 0).server
        NewRecorder (testRequest "aaa")
        (ServeHTTP (NewServer ["aaa"] [notifyingHandler]) NewRecorder
          (testRequest "aaa") 0).world).calls
        = (ServeHTTP (NewServer ["aaa"] [notifyingHandler]) NewRecorder
            (testRequest "aaa") 0).calls) :=
  ⟨by decide, by decide,
    serve_twice_same_response (NewServer ["aaa"] [notifyingHandler]) NewRecorder
      (testRequest "aaa") 0
      (by
        intro h hh c v1 v2
        have hEq : h = notifyingHandler := by simpa [NewServer] using hh
        subst hEq
        rfl)⟩

end Gack
